import Mathlib

/-!
# POS order lifecycle and billing: a shallow embedding

This file embeds the order/order-item core of the restaurant POS server
(`MemStorage` in the storage module, plus the order routes in
`server/routes.ts`) as executable Lean definitions, and proves the
specification's claims about it.

Conventions of the embedding:
* JavaScript `Map<number, T>` becomes an insertion-ordered association list
  `List (Nat × T)`; `Map.set` replaces in place when the key is present and
  appends otherwise, `Map.delete` filters, `Map.values()` is the list of
  second components.
* Monetary values (stored in the source as numeric strings and read back
  through `Number(...)`) are embedded as exact rationals `Rat`; the
  `toString`/`Number` round trip is the identity on the values.
* `Date` timestamps become a `Nat` parameter `now` passed to every operation
  that stamps `createdAt`/`updatedAt`.
* `undefined`/`null`/absent fields become `Option`; JavaScript's
  `x || null` falsy coercion is modelled explicitly (`jsOrNullRat`,
  `jsOrNullStr`).
* Statuses are stored as raw strings, exactly as in the source (the server
  never validates the status field).
-/

/-- Money values: embedded as exact rationals. -/
abbrev Money := Rat

/-- Insertion-ordered map, the embedding of a JavaScript `Map<number, T>`. -/
abbrev JsMap (α : Type) := List (Nat × α)

/-- `Map.get(k)`: first entry with the key, if any. -/
def mapGet {α : Type} (m : JsMap α) (k : Nat) : Option α :=
  (m.find? (fun p => p.1 == k)).map Prod.snd

/-- `Map.set(k, v)`: replace in place when present, append otherwise. -/
def mapSet {α : Type} (m : JsMap α) (k : Nat) (v : α) : JsMap α :=
  if m.any (fun p => p.1 == k) then
    m.map (fun p => if p.1 == k then (k, v) else p)
  else
    m ++ [(k, v)]

/-- `Map.delete(k)`: drop every entry with the key. -/
def mapDelete {α : Type} (m : JsMap α) (k : Nat) : JsMap α :=
  m.filter (fun p => p.1 != k)

/-- `Map.values()` in insertion order. -/
def mapValues {α : Type} (m : JsMap α) : List α :=
  m.map Prod.snd

/-- The `orders` table row as held by the in-memory store.  `subtotal`,
`tax`, `totalAmount` are `Option` because the memory store applies no
column defaults: a created order holds exactly what the insert record
supplied, which may be nothing. -/
structure Order where
  id : Nat
  orderNumber : String
  orderType : String
  tableNumber : Option Int
  customerName : Option String
  customerPhone : Option String
  subtotal : Option Money
  tax : Option Money
  packagingFee : Option Money
  totalAmount : Option Money
  paymentStatus : String
  paymentMethod : Option String
  bankReference : Option String
  cashAmount : Option Money
  bankAmount : Option Money
  notes : Option String
  createdAt : Nat
  updatedAt : Nat
deriving Repr, DecidableEq

/-- `InsertOrder`: the order fields without `id`/`createdAt`/`updatedAt`. -/
structure InsertOrder where
  orderNumber : String
  orderType : String
  tableNumber : Option Int
  customerName : Option String
  customerPhone : Option String
  subtotal : Option Money
  tax : Option Money
  packagingFee : Option Money
  totalAmount : Option Money
  paymentStatus : String
  paymentMethod : Option String
  bankReference : Option String
  cashAmount : Option Money
  bankAmount : Option Money
  notes : Option String
deriving Repr, DecidableEq

/-- The `order_items` table row.  `status` is a raw string: the server
stores whatever string it is handed. -/
structure OrderItem where
  id : Nat
  orderId : Nat
  menuItemId : Nat
  quantity : Int
  price : Money
  status : String
  specialInstructions : Option String
  createdAt : Nat
deriving Repr, DecidableEq

/-- `InsertOrderItem`: the item fields without `id`/`createdAt`. -/
structure InsertOrderItem where
  orderId : Nat
  menuItemId : Nat
  quantity : Int
  price : Money
  status : String
  specialInstructions : Option String
deriving Repr, DecidableEq

/-- `Partial<InsertOrder>`: each field optionally present.  A present field
overrides the stored one (object spread). -/
structure OrderPatch where
  orderNumber : Option String := none
  orderType : Option String := none
  tableNumber : Option (Option Int) := none
  customerName : Option (Option String) := none
  customerPhone : Option (Option String) := none
  subtotal : Option (Option Money) := none
  tax : Option (Option Money) := none
  packagingFee : Option (Option Money) := none
  totalAmount : Option (Option Money) := none
  paymentStatus : Option String := none
  paymentMethod : Option (Option String) := none
  bankReference : Option (Option String) := none
  cashAmount : Option (Option Money) := none
  bankAmount : Option (Option Money) := none
  notes : Option (Option String) := none
deriving Repr, DecidableEq

/-- `{ ...existingOrder, ...patch }`. -/
def applyOrderPatch (o : Order) (p : OrderPatch) : Order :=
  { o with
    orderNumber := p.orderNumber.getD o.orderNumber
    orderType := p.orderType.getD o.orderType
    tableNumber := p.tableNumber.getD o.tableNumber
    customerName := p.customerName.getD o.customerName
    customerPhone := p.customerPhone.getD o.customerPhone
    subtotal := p.subtotal.getD o.subtotal
    tax := p.tax.getD o.tax
    packagingFee := p.packagingFee.getD o.packagingFee
    totalAmount := p.totalAmount.getD o.totalAmount
    paymentStatus := p.paymentStatus.getD o.paymentStatus
    paymentMethod := p.paymentMethod.getD o.paymentMethod
    bankReference := p.bankReference.getD o.bankReference
    cashAmount := p.cashAmount.getD o.cashAmount
    bankAmount := p.bankAmount.getD o.bankAmount
    notes := p.notes.getD o.notes }

/-- JavaScript `x || null` for an optional number: `undefined` and `0` both
collapse to `null`. -/
def jsOrNullRat (x : Option Money) : Option Money :=
  match x with
  | none => none
  | some v => if v = 0 then none else some v

/-- JavaScript `x || null` for an optional string: `undefined` and `""`
both collapse to `null`. -/
def jsOrNullStr (x : Option String) : Option String :=
  match x with
  | none => none
  | some v => if v = "" then none else some v

/-- The order/order-item slice of `MemStorage` (users, categories,
attributes, menu items and the session store play no part in the claims). -/
structure MemStorage where
  orders : JsMap Order
  orderItems : JsMap OrderItem
  currentOrderId : Nat
  currentOrderItemId : Nat
deriving Repr, DecidableEq

namespace MemStorage

/-- The constructor: empty maps, counters at 1. -/
def init : MemStorage :=
  { orders := [], orderItems := [], currentOrderId := 1, currentOrderItemId := 1 }

/-- `getOrder(id)`. -/
def getOrder (s : MemStorage) (id : Nat) : Option Order :=
  mapGet s.orders id

/-- `getAllOrders()`. -/
def getAllOrders (s : MemStorage) : List Order :=
  mapValues s.orders

/-- `createOrder(order)`: post-incremented fresh id, both timestamps
stamped `now`, every other field copied from the insert record. -/
def createOrder (s : MemStorage) (now : Nat) (o : InsertOrder) :
    Order × MemStorage :=
  let id := s.currentOrderId
  let newOrder : Order :=
    { id := id
      orderNumber := o.orderNumber
      orderType := o.orderType
      tableNumber := o.tableNumber
      customerName := o.customerName
      customerPhone := o.customerPhone
      subtotal := o.subtotal
      tax := o.tax
      packagingFee := o.packagingFee
      totalAmount := o.totalAmount
      paymentStatus := o.paymentStatus
      paymentMethod := o.paymentMethod
      bankReference := o.bankReference
      cashAmount := o.cashAmount
      bankAmount := o.bankAmount
      notes := o.notes
      createdAt := now
      updatedAt := now }
  (newOrder,
   { s with currentOrderId := id + 1, orders := mapSet s.orders id newOrder })

/-- `updateOrder(id, order)`: spread the patch over the stored order and
freshen `updatedAt`; `undefined` when the id is unknown. -/
def updateOrder (s : MemStorage) (now : Nat) (id : Nat) (p : OrderPatch) :
    Option Order × MemStorage :=
  match mapGet s.orders id with
  | none => (none, s)
  | some existingOrder =>
    let updatedOrder := { applyOrderPatch existingOrder p with updatedAt := now }
    (some updatedOrder, { s with orders := mapSet s.orders id updatedOrder })

/-- `updateOrderPayment(id, paymentMethod, bankReference?, cashAmount?,
bankAmount?)`: marks the order paid; the optional fields go through
JavaScript's `|| null` coercion. -/
def updateOrderPayment (s : MemStorage) (now : Nat) (id : Nat)
    (paymentMethod : String) (bankReference : Option String)
    (cashAmount bankAmount : Option Money) : Option Order × MemStorage :=
  match mapGet s.orders id with
  | none => (none, s)
  | some existingOrder =>
    let updatedOrder :=
      { existingOrder with
        paymentStatus := "paid"
        paymentMethod := some paymentMethod
        bankReference := jsOrNullStr bankReference
        cashAmount := jsOrNullRat cashAmount
        bankAmount := jsOrNullRat bankAmount
        updatedAt := now }
    (some updatedOrder, { s with orders := mapSet s.orders id updatedOrder })

/-- `getOrderItems(orderId)`: the items of one order, in insertion order. -/
def getOrderItems (s : MemStorage) (orderId : Nat) : List OrderItem :=
  (mapValues s.orderItems).filter (fun item => item.orderId == orderId)

/-- `Σ price_i * quantity_i` over a list of items, as folded in
`recalculateOrderTotal`. -/
def itemsSubtotal (items : List OrderItem) : Money :=
  items.foldl (fun sum item => sum + item.price * (item.quantity : Money)) 0

/-- `recalculateOrderTotal(orderId)`: silently returns when the order is
unknown; otherwise recomputes subtotal, 5% tax and total (plus packaging
fee, read as 0 when absent) and writes them back through `updateOrder`. -/
def recalculateOrderTotal (s : MemStorage) (now : Nat) (orderId : Nat) :
    MemStorage :=
  match getOrder s orderId with
  | none => s
  | some order =>
    let items := getOrderItems s orderId
    let subtotal := itemsSubtotal items
    let tax := subtotal * (5 / 100 : Money)
    let totalAmount := subtotal + tax + (order.packagingFee.getD 0)
    (updateOrder s now orderId
      { subtotal := some (some subtotal)
        tax := some (some tax)
        totalAmount := some (some totalAmount) }).2

/-- `addOrderItem(item)`: post-incremented fresh id, `createdAt` stamped,
inserted unconditionally, then the owning order's totals recalculated. -/
def addOrderItem (s : MemStorage) (now : Nat) (item : InsertOrderItem) :
    OrderItem × MemStorage :=
  let id := s.currentOrderItemId
  let newItem : OrderItem :=
    { id := id
      orderId := item.orderId
      menuItemId := item.menuItemId
      quantity := item.quantity
      price := item.price
      status := item.status
      specialInstructions := item.specialInstructions
      createdAt := now }
  let s1 :=
    { s with currentOrderItemId := id + 1
             orderItems := mapSet s.orderItems id newItem }
  (newItem, recalculateOrderTotal s1 now item.orderId)

/-- `updateOrderItemStatus(id, status)`: stores the given status string
unconditionally (no lifecycle validation in the source). -/
def updateOrderItemStatus (s : MemStorage) (id : Nat) (status : String) :
    Option OrderItem × MemStorage :=
  match mapGet s.orderItems id with
  | none => (none, s)
  | some existingItem =>
    let updatedItem := { existingItem with status := status }
    (some updatedItem, { s with orderItems := mapSet s.orderItems id updatedItem })

/-- `updateOrderItemQuantity(id, quantity)`: overwrites the quantity and
recalculates the owning order's totals. -/
def updateOrderItemQuantity (s : MemStorage) (now : Nat) (id : Nat)
    (quantity : Int) : Option OrderItem × MemStorage :=
  match mapGet s.orderItems id with
  | none => (none, s)
  | some existingItem =>
    let updatedItem := { existingItem with quantity := quantity }
    let s1 := { s with orderItems := mapSet s.orderItems id updatedItem }
    (some updatedItem, recalculateOrderTotal s1 now existingItem.orderId)

/-- `removeOrderItem(id)`: false when unknown; otherwise deletes the item
and recalculates the owning order's totals. -/
def removeOrderItem (s : MemStorage) (now : Nat) (id : Nat) :
    Bool × MemStorage :=
  match mapGet s.orderItems id with
  | none => (false, s)
  | some item =>
    let s1 := { s with orderItems := mapDelete s.orderItems id }
    (true, recalculateOrderTotal s1 now item.orderId)

end MemStorage

/-- Fuelled digit extraction, least significant first; `fuel ≥ n` always
suffices, so the base case is unreachable for the fuel used below. -/
def digitsRevGo (fuel n : Nat) : List Nat :=
  match fuel with
  | 0 => [n]
  | fuel + 1 => if n < 10 then [n] else (n % 10) :: digitsRevGo fuel (n / 10)

/-- Digits of `n`, least significant first (`n = 0` gives `[0]`, matching
JavaScript `String(0) = "0"`). -/
def natDigitsRev (n : Nat) : List Nat :=
  digitsRevGo n n

/-- The character for one decimal digit. -/
def digitChar (d : Nat) : Char :=
  Char.ofNat (48 + d)

/-- JavaScript `String(n)` for a natural number: its decimal notation. -/
def jsNumberToString (n : Nat) : String :=
  String.mk ((natDigitsRev n).reverse.map digitChar)

namespace Routes

/-- The error outcomes the order routes produce: 404 and 400. -/
inductive RouteError
  | notFound
  | badRequest
deriving Repr, DecidableEq

/-- `POST /api/orders`: derives the order number from the live count of
existing orders (`String(1000 + allOrders.length + 1)`), overrides it in
the request body and creates the order. -/
def postOrders (s : MemStorage) (now : Nat) (body : InsertOrder) :
    Order × MemStorage :=
  let orderNumber := jsNumberToString (1000 + (MemStorage.getAllOrders s).length + 1)
  MemStorage.createOrder s now { body with orderNumber := orderNumber }

/-- The JSON body of a successful KOT print. -/
structure KotResponse where
  order : Order
  kotItems : List OrderItem
  allItems : List OrderItem
deriving Repr, DecidableEq

/-- `GET /api/kot/:orderId`: 404 for an unknown order; otherwise moves
every currently `pending` item of the order to `kot_printed` and returns
the pre-transition pending set and the post-transition full set. -/
def getKot (s : MemStorage) (orderId : Nat) :
    Except RouteError KotResponse × MemStorage :=
  match MemStorage.getOrder s orderId with
  | none => (Except.error RouteError.notFound, s)
  | some order =>
    let items := MemStorage.getOrderItems s orderId
    let pendingItems := items.filter (fun item => item.status == "pending")
    let s1 := pendingItems.foldl
      (fun st item => (MemStorage.updateOrderItemStatus st item.id "kot_printed").2) s
    let updatedItems := MemStorage.getOrderItems s1 orderId
    (Except.ok { order := order, kotItems := pendingItems, allItems := updatedItems }, s1)

/-- The JSON body of a successful bill print. -/
structure BillResponse where
  order : Order
  items : List OrderItem
deriving Repr, DecidableEq

/-- `GET /api/bill/:orderId`: 404 for an unknown order; 400 when any item
of the order is still `pending` (nothing written in that case); otherwise
moves every item of the order to `completed` and returns the full set. -/
def getBill (s : MemStorage) (orderId : Nat) :
    Except RouteError BillResponse × MemStorage :=
  match MemStorage.getOrder s orderId with
  | none => (Except.error RouteError.notFound, s)
  | some order =>
    let items := MemStorage.getOrderItems s orderId
    let pendingItems := items.filter (fun item => item.status == "pending")
    if pendingItems.length > 0 then (Except.error RouteError.badRequest, s)
    else
      let s1 := items.foldl
        (fun st item => (MemStorage.updateOrderItemStatus st item.id "completed").2) s
      let updatedItems := MemStorage.getOrderItems s1 orderId
      (Except.ok { order := order, items := updatedItems }, s1)

end Routes

/-- Well-formedness of the item map, true of every reachable store: keys
are pairwise distinct and each entry's key is its item's `id`. -/
def ItemsWF (s : MemStorage) : Prop :=
  (s.orderItems.map Prod.fst).Nodup ∧ ∀ p ∈ s.orderItems, p.1 = p.2.id

instance (s : MemStorage) : Decidable (ItemsWF s) := by
  unfold ItemsWF
  infer_instance

/-- Well-formedness of the order map, true of every reachable store: every
key is below the id counter (so a freshly created order never overwrites
an existing entry). -/
def OrdersWF (s : MemStorage) : Prop :=
  ∀ p ∈ s.orders, p.1 < s.currentOrderId

instance (s : MemStorage) : Decidable (OrdersWF s) := by
  unfold OrdersWF
  infer_instance

/-- The three lifecycle statuses. -/
def lifecycleStatuses : List String :=
  ["pending", "kot_printed", "completed"]

/-- Position of a status along `pending → kot_printed → completed`;
strings outside the lifecycle rank above all of it. -/
def statusRank (status : String) : Nat :=
  if status = "pending" then 0
  else if status = "kot_printed" then 1
  else if status = "completed" then 2
  else 3

/-- The billing invariant at one order: the stored totals agree with the
billing calculator over the order's current items. -/
def totalsOk (s : MemStorage) (oid : Nat) : Prop :=
  ∀ o, MemStorage.getOrder s oid = some o →
    o.subtotal = some (MemStorage.itemsSubtotal (MemStorage.getOrderItems s oid)) ∧
    o.tax = some (MemStorage.itemsSubtotal (MemStorage.getOrderItems s oid) * (5 / 100 : Money)) ∧
    o.totalAmount = some
      (MemStorage.itemsSubtotal (MemStorage.getOrderItems s oid) +
        MemStorage.itemsSubtotal (MemStorage.getOrderItems s oid) * (5 / 100 : Money) +
        o.packagingFee.getD 0)

/-- What a KOT print does to one item: a `pending` item advances to
`kot_printed`, everything else is untouched. -/
def kotStep (v : OrderItem) : OrderItem :=
  if v.status == "pending" then { v with status := "kot_printed" } else v

/-- What a bill print does to one item of the order: it becomes
`completed`. -/
def completedStep (v : OrderItem) : OrderItem :=
  { v with status := "completed" }

/-- A sequential history that only creates orders: `POST /api/orders` once
per body, collecting the created orders. -/
def runCreates (s : MemStorage) (now : Nat) : List InsertOrder → List Order × MemStorage
  | [] => ([], s)
  | b :: rest =>
    let r := Routes.postOrders s now b
    let rr := runCreates r.2 now rest
    (r.1 :: rr.1, rr.2)

/-- Value of a digit list, least significant digit first. -/
def valRev : List Nat → Nat
  | [] => 0
  | d :: ds => d + 10 * valRev ds

/-! ## Concrete fixtures (witnesses and counterexamples) -/

/-- A dine-in order request body as the client sends it: no totals. -/
def fixInsertOrder : InsertOrder :=
  { orderNumber := ""
    orderType := "dine_in"
    tableNumber := some 3
    customerName := none
    customerPhone := none
    subtotal := none
    tax := none
    packagingFee := none
    totalAmount := none
    paymentStatus := "unpaid"
    paymentMethod := none
    bankReference := none
    cashAmount := none
    bankAmount := none
    notes := none }

/-- A request body smuggling a nonzero subtotal past order creation. -/
def fixInsertOrderSub7 : InsertOrder :=
  { fixInsertOrder with subtotal := some 7 }

/-- Store after creating one order (id 1) through the route. -/
def fixStore1 : MemStorage :=
  (Routes.postOrders MemStorage.init 0 fixInsertOrder).2

/-- The order created in `fixStore1`. -/
def fixOrder1 : Order :=
  (Routes.postOrders MemStorage.init 0 fixInsertOrder).1

/-- An item request: 2 × 150 on order 1, freshly `pending`. -/
def fixInsertItem : InsertOrderItem :=
  { orderId := 1
    menuItemId := 1
    quantity := 2
    price := 150
    status := "pending"
    specialInstructions := none }

/-- An item request whose owning order (42) does not exist. -/
def fixOrphanItem : InsertOrderItem :=
  { fixInsertItem with orderId := 42 }

/-- Store after adding the 2 × 150 item (item id 1) to order 1. -/
def fixStore2 : MemStorage :=
  (MemStorage.addOrderItem fixStore1 0 fixInsertItem).2

/-- Order 1 as stored in `fixStore2` (totals 300 / 15 / 315). -/
def fixOrder2 : Order :=
  (MemStorage.getOrder fixStore2 1).getD fixOrder1

/-- Store after printing the KOT for order 1 (item 1 now `kot_printed`). -/
def fixStore3 : MemStorage :=
  (Routes.getKot fixStore2 1).2

/-- Order 1 as stored in `fixStore3`. -/
def fixOrder3 : Order :=
  (MemStorage.getOrder fixStore3 1).getD fixOrder1

/-- Item 1 as it stands after the KOT print: `kot_printed`. -/
def fixItemKot : OrderItem :=
  { id := 1, orderId := 1, menuItemId := 1, quantity := 2, price := 150,
    status := "kot_printed", specialInstructions := none, createdAt := 0 }

/-- Store after printing the bill for order 1 (item 1 now `completed`). -/
def fixStore4 : MemStorage :=
  (Routes.getBill fixStore3 1).2

/-- Store after the status-update route pushes the completed item 1 back
to `pending`. -/
def fixStore5 : MemStorage :=
  (MemStorage.updateOrderItemStatus fixStore4 1 "pending").2

/-- Store after the status-update route stores a string outside the
lifecycle for item 1. -/
def fixStore5g : MemStorage :=
  (MemStorage.updateOrderItemStatus fixStore4 1 "abc").2

/-! ## Lemmas about the map embedding -/

theorem find?_replace_self {α : Type} (m : JsMap α) (k : Nat) (v : α) :
    (m.map (fun p => if p.1 == k then (k, v) else p)).find? (fun p => p.1 == k) =
      if m.any (fun p => p.1 == k) then some (k, v) else none := by
  induction m with
  | nil => simp
  | cons p t ih =>
    by_cases h : p.1 = k
    · simp [List.find?, h]
    · simp only [List.map_cons, List.any_cons]
      rw [if_neg (by simpa using h), List.find?_cons_of_neg _ (by simpa using h), ih]
      simp only [show (p.1 == k) = false from by simpa using h, Bool.false_or]

theorem find?_replace_ne {α : Type} (m : JsMap α) (k k' : Nat) (v : α)
    (hne : k' ≠ k) :
    (m.map (fun p => if p.1 == k then (k, v) else p)).find? (fun p => p.1 == k') =
      m.find? (fun p => p.1 == k') := by
  induction m with
  | nil => simp
  | cons p t ih =>
    by_cases h : p.1 = k
    · have hpk' : ¬ (p.1 = k') := by omega
      simp only [List.map_cons]
      rw [if_pos (by simpa using h),
        List.find?_cons_of_neg _ (by simpa using Ne.symm hne),
        List.find?_cons_of_neg _ (by simpa using hpk'), ih]
    · by_cases h' : p.1 = k'
      · simp only [List.map_cons]
        rw [if_neg (by simpa using h), List.find?_cons_of_pos _ (by simpa using h'),
          List.find?_cons_of_pos _ (by simpa using h')]
      · simp only [List.map_cons]
        rw [if_neg (by simpa using h), List.find?_cons_of_neg _ (by simpa using h'),
          List.find?_cons_of_neg _ (by simpa using h'), ih]

theorem find?_append_right {α : Type} (m : List α) (t : List α) (p : α → Bool)
    (h : m.find? p = none) : (m ++ t).find? p = t.find? p := by
  induction m with
  | nil => simp
  | cons x xs ih =>
    rcases List.find?_eq_none.mp h x (by simp) with hx
    rw [List.cons_append, List.find?_cons_of_neg _ (by simpa using hx)]
    exact ih (by
      rw [List.find?_eq_none] at h ⊢
      intro a ha
      exact h a (by simp [ha]))

theorem mapGet_mapSet_self {α : Type} (m : JsMap α) (k : Nat) (v : α) :
    mapGet (mapSet m k v) k = some v := by
  unfold mapGet mapSet
  by_cases h : m.any (fun p => p.1 == k)
  · rw [if_pos h, find?_replace_self, if_pos h]
    rfl
  · rw [if_neg h]
    have hnone : m.find? (fun p => p.1 == k) = none := by
      rw [List.find?_eq_none]
      intro p hp
      simp only [List.any_eq_true, not_exists, not_and] at h
      by_cases hpk : p.1 = k
      · exact absurd (by simpa using hpk) (by simpa using h p hp)
      · simpa using hpk
    rw [find?_append_right _ _ _ hnone]
    simp [List.find?]

theorem mapGet_mapSet_ne {α : Type} (m : JsMap α) (k k' : Nat) (v : α)
    (hne : k' ≠ k) : mapGet (mapSet m k v) k' = mapGet m k' := by
  unfold mapGet mapSet
  by_cases h : m.any (fun p => p.1 == k)
  · rw [if_pos h, find?_replace_ne _ _ _ _ hne]
  · rw [if_neg h]
    by_cases hfind : (m.find? (fun p => p.1 == k')).isSome
    · rcases Option.isSome_iff_exists.mp hfind with ⟨p, hp⟩
      rw [List.find?_append, hp]
      rfl
    · have hnone : m.find? (fun p => p.1 == k') = none := by
        cases hf : m.find? (fun p => p.1 == k') with
        | none => rfl
        | some p => rw [hf] at hfind; simp at hfind
      rw [find?_append_right _ _ _ hnone, hnone]
      have h2 : List.find? (fun q => q.1 == k') [(k, v)] = none := by
        simp [List.find?]
        rw [show (k == k') = false from by simpa using Ne.symm hne]
      rw [h2]

/-! ## Recalculation lemmas -/

theorem recalculateOrderTotal_missing (s : MemStorage) (now oid : Nat)
    (h : MemStorage.getOrder s oid = none) :
    MemStorage.recalculateOrderTotal s now oid = s := by
  unfold MemStorage.recalculateOrderTotal
  rw [h]

theorem recalc_result (s : MemStorage) (now oid : Nat) (o : Order)
    (h : mapGet s.orders oid = some o) :
    MemStorage.recalculateOrderTotal s now oid =
      { s with orders := mapSet s.orders oid ({ o with
          subtotal := some (MemStorage.itemsSubtotal (MemStorage.getOrderItems s oid))
          tax := some (MemStorage.itemsSubtotal (MemStorage.getOrderItems s oid) * (5 / 100 : Money))
          totalAmount := some (MemStorage.itemsSubtotal (MemStorage.getOrderItems s oid) +
            MemStorage.itemsSubtotal (MemStorage.getOrderItems s oid) * (5 / 100 : Money) +
            o.packagingFee.getD 0)
          updatedAt := now }) } := by
  unfold MemStorage.recalculateOrderTotal MemStorage.getOrder MemStorage.updateOrder
  rw [h]
  simp [applyOrderPatch]

theorem recalc_totalsOk (s : MemStorage) (now oid : Nat) (o : Order)
    (h : mapGet s.orders oid = some o) :
    totalsOk (MemStorage.recalculateOrderTotal s now oid) oid := by
  intro o' ho'
  rw [recalc_result s now oid o h] at ho' ⊢
  unfold MemStorage.getOrder at ho'
  simp only [mapGet_mapSet_self] at ho'
  rcases Option.some_inj.mp ho' with rfl
  exact ⟨rfl, rfl, rfl⟩

/-! ## Claim theorems: totals invariant and simple operations -/

/-- C1: for every order present in the store, after any single item
mutation on it — `addOrderItem`, `updateOrderItemQuantity` or
`removeOrderItem` — the stored totals satisfy
`subtotal = Σ price_i * quantity_i` over the order's current items,
`tax = subtotal * 0.05` and
`totalAmount = subtotal + tax + packagingFee` (packaging fee read as 0
when absent). -/
theorem itemMutation_totals_invariant :
    (∀ s now item o, mapGet s.orders item.orderId = some o →
      totalsOk (MemStorage.addOrderItem s now item).2 item.orderId) ∧
    (∀ s now iid q it o, mapGet s.orderItems iid = some it →
      mapGet s.orders it.orderId = some o →
      totalsOk (MemStorage.updateOrderItemQuantity s now iid q).2 it.orderId) ∧
    (∀ s now iid it o, mapGet s.orderItems iid = some it →
      mapGet s.orders it.orderId = some o →
      totalsOk (MemStorage.removeOrderItem s now iid).2 it.orderId) := by
  refine ⟨?_, ?_, ?_⟩
  · intro s now item o h
    unfold MemStorage.addOrderItem
    exact recalc_totalsOk _ now item.orderId o h
  · intro s now iid q it o hit ho
    unfold MemStorage.updateOrderItemQuantity
    rw [hit]
    exact recalc_totalsOk _ now it.orderId o ho
  · intro s now iid it o hit ho
    unfold MemStorage.removeOrderItem
    rw [hit]
    exact recalc_totalsOk _ now it.orderId o ho

/-- C1 witness: the invariant instantiated on the concrete scenario
(order 1, one 2 × 150 item ⇒ subtotal 300, tax 15, total 315). -/
theorem itemMutation_totals_invariant_witness :
    mapGet fixStore1.orders 1 = some fixOrder1 ∧
    totalsOk (MemStorage.addOrderItem fixStore1 0 fixInsertItem).2 1 :=
  ⟨by decide, itemMutation_totals_invariant.1 fixStore1 0 fixInsertItem fixOrder1 (by decide)⟩

/-- C6 counterexample: `createOrder` does not zero totals — an insert
record carrying `subtotal = 7` is stored verbatim. -/
theorem createOrder_totals_not_zeroed_cex :
    (MemStorage.createOrder MemStorage.init 0 fixInsertOrderSub7).1.subtotal = some 7 ∧
    (some (7 : Money) : Option Money) ≠ some 0 := by
  exact ⟨by decide, by decide⟩

/-- C6 amended: `createOrder` assigns a fresh id (the current counter,
then bumped) and stamps both timestamps `now`, but copies the totals
verbatim from the input fields; it does not zero them. -/
theorem createOrder_assigns_id_copies_fields (s : MemStorage) (now : Nat)
    (f : InsertOrder) :
    (MemStorage.createOrder s now f).1.id = s.currentOrderId ∧
    (MemStorage.createOrder s now f).1.createdAt = now ∧
    (MemStorage.createOrder s now f).1.updatedAt = now ∧
    (MemStorage.createOrder s now f).1.subtotal = f.subtotal ∧
    (MemStorage.createOrder s now f).1.tax = f.tax ∧
    (MemStorage.createOrder s now f).1.totalAmount = f.totalAmount ∧
    (MemStorage.createOrder s now f).2.currentOrderId = s.currentOrderId + 1 ∧
    mapGet (MemStorage.createOrder s now f).2.orders s.currentOrderId =
      some (MemStorage.createOrder s now f).1 := by
  refine ⟨rfl, rfl, rfl, rfl, rfl, rfl, rfl, ?_⟩
  exact mapGet_mapSet_self _ _ _

/-- C7: removing a nonexistent item id returns `false` and leaves the
whole store — in particular every order's totals — unchanged. -/
theorem removeOrderItem_missing (s : MemStorage) (now id : Nat)
    (h : mapGet s.orderItems id = none) :
    MemStorage.removeOrderItem s now id = (false, s) := by
  unfold MemStorage.removeOrderItem
  rw [h]

/-- C7 witness: removing item 5 from the pristine store. -/
theorem removeOrderItem_missing_witness :
    MemStorage.removeOrderItem MemStorage.init 0 5 = (false, MemStorage.init) :=
  removeOrderItem_missing MemStorage.init 0 5 (by decide)

/-- C9: `addOrderItem` never fails for an unknown owning order: the item
is assigned an id, inserted and returned, and the recalculation silently
does nothing (orders untouched), leaving an orphan item behind. -/
theorem addOrderItem_orphan (s : MemStorage) (now : Nat) (item : InsertOrderItem)
    (h : mapGet s.orders item.orderId = none) :
    MemStorage.addOrderItem s now item =
      ({ id := s.currentOrderItemId, orderId := item.orderId,
         menuItemId := item.menuItemId, quantity := item.quantity,
         price := item.price, status := item.status,
         specialInstructions := item.specialInstructions, createdAt := now },
       { s with currentOrderItemId := s.currentOrderItemId + 1,
                orderItems := mapSet s.orderItems s.currentOrderItemId
                  { id := s.currentOrderItemId, orderId := item.orderId,
                    menuItemId := item.menuItemId, quantity := item.quantity,
                    price := item.price, status := item.status,
                    specialInstructions := item.specialInstructions,
                    createdAt := now } }) ∧
    mapGet (mapSet s.orderItems s.currentOrderItemId
        { id := s.currentOrderItemId, orderId := item.orderId,
          menuItemId := item.menuItemId, quantity := item.quantity,
          price := item.price, status := item.status,
          specialInstructions := item.specialInstructions, createdAt := now })
      s.currentOrderItemId =
      some { id := s.currentOrderItemId, orderId := item.orderId,
             menuItemId := item.menuItemId, quantity := item.quantity,
             price := item.price, status := item.status,
             specialInstructions := item.specialInstructions, createdAt := now } := by
  refine ⟨?_, mapGet_mapSet_self _ _ _⟩
  show (_, MemStorage.recalculateOrderTotal _ now item.orderId) = _
  rw [recalculateOrderTotal_missing
    { orders := s.orders
      orderItems := mapSet s.orderItems s.currentOrderItemId
        { id := s.currentOrderItemId, orderId := item.orderId,
          menuItemId := item.menuItemId, quantity := item.quantity,
          price := item.price, status := item.status,
          specialInstructions := item.specialInstructions, createdAt := now }
      currentOrderId := s.currentOrderId
      currentOrderItemId := s.currentOrderItemId + 1 }
    now item.orderId h]

/-- C9 witness: adding an item whose owning order 42 does not exist. -/
theorem addOrderItem_orphan_witness :
    mapGet MemStorage.init.orders 42 = none ∧
    mapGet (mapSet MemStorage.init.orderItems MemStorage.init.currentOrderItemId
        { id := MemStorage.init.currentOrderItemId, orderId := fixOrphanItem.orderId,
          menuItemId := fixOrphanItem.menuItemId, quantity := fixOrphanItem.quantity,
          price := fixOrphanItem.price, status := fixOrphanItem.status,
          specialInstructions := fixOrphanItem.specialInstructions, createdAt := 0 })
      MemStorage.init.currentOrderItemId =
      some { id := MemStorage.init.currentOrderItemId, orderId := fixOrphanItem.orderId,
             menuItemId := fixOrphanItem.menuItemId, quantity := fixOrphanItem.quantity,
             price := fixOrphanItem.price, status := fixOrphanItem.status,
             specialInstructions := fixOrphanItem.specialInstructions, createdAt := 0 } :=
  ⟨by decide, (addOrderItem_orphan MemStorage.init 0 fixOrphanItem (by decide)).2⟩

/-- C10: payment settlement coerces falsy optional arguments to `null`:
a zero `cashAmount`, a zero `bankAmount` or an empty `bankReference` is
stored as `null` (`none`) rather than as the given value. -/
theorem updateOrderPayment_falsy (s : MemStorage) (now id : Nat) (o : Order)
    (m : String) (br : Option String) (ca ba : Option Money)
    (h : mapGet s.orders id = some o) :
    (∃ u, (MemStorage.updateOrderPayment s now id m br (some 0) ba).1 = some u ∧
      u.cashAmount = none ∧
      mapGet (MemStorage.updateOrderPayment s now id m br (some 0) ba).2.orders id =
        some u) ∧
    (∃ u, (MemStorage.updateOrderPayment s now id m br ca (some 0)).1 = some u ∧
      u.bankAmount = none ∧
      mapGet (MemStorage.updateOrderPayment s now id m br ca (some 0)).2.orders id =
        some u) ∧
    (∃ u, (MemStorage.updateOrderPayment s now id m (some "") ca ba).1 = some u ∧
      u.bankReference = none ∧
      mapGet (MemStorage.updateOrderPayment s now id m (some "") ca ba).2.orders id =
        some u) := by
  unfold MemStorage.updateOrderPayment
  rw [h]
  refine ⟨⟨_, rfl, ?_, ?_⟩, ⟨_, rfl, ?_, ?_⟩, ⟨_, rfl, ?_, ?_⟩⟩
  · simp [jsOrNullRat]
  · simp only [mapGet_mapSet_self]
  · simp [jsOrNullRat]
  · simp only [mapGet_mapSet_self]
  · simp [jsOrNullStr]
  · simp only [mapGet_mapSet_self]

/-- C10 witness: settling order 1 of the concrete store with zero and
empty arguments. -/
theorem updateOrderPayment_falsy_witness :
    ∃ u, (MemStorage.updateOrderPayment fixStore2 0 1 "cash" none (some 0) none).1 =
        some u ∧
      u.cashAmount = none ∧
      mapGet (MemStorage.updateOrderPayment fixStore2 0 1 "cash" none
          (some 0) none).2.orders 1 = some u :=
  (updateOrderPayment_falsy fixStore2 0 1 fixOrder2 "cash" none none none
    (of_decide_eq_true (by with_unfolding_all rfl))).1

/-- C5 counterexample: settlement with the given reference `""` stores
`null` for `bankReference`, not the given reference. -/
theorem settlePayment_empty_reference_cex :
    (MemStorage.updateOrderPayment fixStore2 0 1 "split" (some "") (some 60)
        (some 40)).1.map Order.bankReference = some none ∧
    (some (none : Option String) : Option (Option String)) ≠ some (some "") := by
  exact ⟨of_decide_eq_true (by with_unfolding_all rfl), by decide⟩

/-- C5 amended: for an existing order, settlement returns the updated
order with `paymentStatus = "paid"` and the given method stored; the
reference and split amounts are stored when truthy, while `0` and `""`
are stored as `null`. In particular `settlePayment(id, "split", ref, 60,
40)` stores `cashAmount = 60` and `bankAmount = 40`. For an unknown id it
returns not-found and changes nothing. -/
theorem settlePayment_amended :
    (∀ s now id o m br ca ba, mapGet s.orders id = some o →
      ∃ u, (MemStorage.updateOrderPayment s now id m br ca ba).1 = some u ∧
        u.paymentStatus = "paid" ∧ u.paymentMethod = some m ∧
        u.bankReference = jsOrNullStr br ∧ u.cashAmount = jsOrNullRat ca ∧
        u.bankAmount = jsOrNullRat ba ∧
        mapGet (MemStorage.updateOrderPayment s now id m br ca ba).2.orders id =
          some u) ∧
    (∀ s now id o m br, mapGet s.orders id = some o →
      ∃ u, (MemStorage.updateOrderPayment s now id m br (some 60) (some 40)).1 =
          some u ∧
        u.paymentStatus = "paid" ∧ u.cashAmount = some 60 ∧ u.bankAmount = some 40) ∧
    (∀ s now id m br ca ba, mapGet s.orders id = none →
      MemStorage.updateOrderPayment s now id m br ca ba = (none, s)) := by
  refine ⟨?_, ?_, ?_⟩
  · intro s now id o m br ca ba h
    unfold MemStorage.updateOrderPayment
    rw [h]
    exact ⟨_, rfl, rfl, rfl, rfl, rfl, rfl, by simp only [mapGet_mapSet_self]⟩
  · intro s now id o m br h
    unfold MemStorage.updateOrderPayment
    rw [h]
    refine ⟨_, rfl, rfl, ?_, ?_⟩
    · simp [jsOrNullRat]
    · simp [jsOrNullRat]
  · intro s now id m br ca ba h
    unfold MemStorage.updateOrderPayment
    rw [h]

/-- C5 witness: the split settlement on the concrete store. -/
theorem settlePayment_amended_witness :
    ∃ u, (MemStorage.updateOrderPayment fixStore2 0 1 "split" (some "r")
        (some 60) (some 40)).1 = some u ∧
      u.paymentStatus = "paid" ∧ u.cashAmount = some 60 ∧ u.bankAmount = some 40 :=
  settlePayment_amended.2.1 fixStore2 0 1 fixOrder2 "split" (some "r")
    (of_decide_eq_true (by with_unfolding_all rfl))

/-! ## Status-fold machinery for the print routes -/

theorem any_of_mapGet_some {α : Type} {m : JsMap α} {k : Nat} {v : α}
    (h : mapGet m k = some v) : m.any (fun p => p.1 == k) = true := by
  unfold mapGet at h
  cases hf : m.find? (fun p => p.1 == k) with
  | none => rw [hf] at h; simp at h
  | some p =>
    have hmem := List.mem_of_find?_eq_some hf
    have hpred := List.find?_some hf
    exact List.any_eq_true.mpr ⟨p, hmem, hpred⟩

theorem mapGet_mem {α : Type} {m : JsMap α} {k : Nat} {v : α}
    (h : mapGet m k = some v) : (k, v) ∈ m := by
  unfold mapGet at h
  cases hf : m.find? (fun p => p.1 == k) with
  | none => rw [hf] at h; simp at h
  | some p =>
    rw [hf] at h
    have hpred := List.find?_some hf
    have hk : p.1 = k := by simpa using hpred
    have hv : p.2 = v := by simpa using h
    have : p = (k, v) := by
      cases p
      simp only at hk hv
      rw [hk, hv]
    rw [← this]
    exact List.mem_of_find?_eq_some hf

theorem nodupKeys_eq_of_mem {α : Type} {m : JsMap α}
    (hnd : (m.map Prod.fst).Nodup) {p q : Nat × α}
    (hp : p ∈ m) (hq : q ∈ m) (hk : p.1 = q.1) : p = q := by
  induction m with
  | nil => cases hp
  | cons a t ih =>
    rcases List.mem_cons.mp hp with rfl | hp'
    · rcases List.mem_cons.mp hq with rfl | hq'
      · rfl
      · exact absurd (hk ▸ List.mem_map_of_mem Prod.fst hq')
          ((List.nodup_cons.mp hnd).1)
    · rcases List.mem_cons.mp hq with rfl | hq'
      · exact absurd (hk ▸ List.mem_map_of_mem Prod.fst hp')
          ((List.nodup_cons.mp hnd).1)
      · exact ih (List.nodup_cons.mp hnd).2 hp' hq'

theorem mapGet_of_mem_nodup {α : Type} {m : JsMap α}
    (hnd : (m.map Prod.fst).Nodup) {k : Nat} {v : α}
    (hm : (k, v) ∈ m) : mapGet m k = some v := by
  cases hf : m.find? (fun p => p.1 == k) with
  | none =>
    have := List.find?_eq_none.mp hf (k, v) hm
    simp at this
  | some p =>
    have hpred := List.find?_some hf
    have hk : p.1 = k := by simpa using hpred
    have : p = (k, v) :=
      nodupKeys_eq_of_mem hnd (List.mem_of_find?_eq_some hf) hm hk
    unfold mapGet
    rw [hf, this]
    rfl

theorem keys_replace {α : Type} (m : JsMap α) (k : Nat) (v : α) :
    (m.map (fun p => if p.1 == k then (k, v) else p)).map Prod.fst =
      m.map Prod.fst := by
  rw [List.map_map]
  refine List.map_congr_left fun p _ => ?_
  by_cases h : p.1 = k
  · simp [h]
  · simp [h]

theorem mapGet_replace_ne {α : Type} (m : JsMap α) (k k' : Nat) (v : α)
    (hne : k' ≠ k) :
    mapGet (m.map (fun p => if p.1 == k then (k, v) else p)) k' = mapGet m k' := by
  unfold mapGet
  rw [find?_replace_ne _ _ _ _ hne]

theorem updateOrderItemStatus_found (s : MemStorage) (it : OrderItem) (c : String)
    (h : mapGet s.orderItems it.id = some it) :
    (MemStorage.updateOrderItemStatus s it.id c).2 =
      { s with orderItems := (s.orderItems.map
          (fun p => if p.1 == it.id then (it.id, { it with status := c }) else p)) } := by
  unfold MemStorage.updateOrderItemStatus
  rw [h]
  simp only [mapSet, any_of_mapGet_some h, if_pos]

theorem foldStatus_eq (c : String) :
    ∀ (items : List OrderItem) (s : MemStorage),
      (s.orderItems.map Prod.fst).Nodup →
      (∀ it ∈ items, mapGet s.orderItems it.id = some it) →
      (items.map OrderItem.id).Nodup →
      items.foldl (fun st it => (MemStorage.updateOrderItemStatus st it.id c).2) s =
        { s with orderItems := (s.orderItems.map
            (fun p => if items.any (fun it => it.id == p.1)
              then (p.1, { p.2 with status := c }) else p)) } := by
  intro items
  induction items with
  | nil =>
    intro s _ _ _
    simp
  | cons it rest ih =>
    intro s hnd hmem hids
    have hhead : mapGet s.orderItems it.id = some it := hmem it (by simp)
    have hnotin : it.id ∉ rest.map OrderItem.id := (List.nodup_cons.mp hids).1
    rw [List.foldl_cons, updateOrderItemStatus_found s it c hhead]
    rw [ih _ (by rw [keys_replace]; exact hnd)
      (by
        intro it' hit'
        have hne : it'.id ≠ it.id := by
          intro hcontra
          exact hnotin (hcontra ▸ List.mem_map_of_mem OrderItem.id hit')
        rw [mapGet_replace_ne _ _ _ _ hne]
        exact hmem it' (by simp [hit']))
      (List.nodup_cons.mp hids).2]
    simp only [List.map_map]
    congr 1
    refine List.map_congr_left fun p hp => ?_
    by_cases hpk : p.1 = it.id
    · have hpit : p = (it.id, it) :=
        nodupKeys_eq_of_mem hnd hp (mapGet_mem hhead) (by simpa using hpk)
      have hrest : rest.any (fun x => x.id == it.id) = false := by
        rw [List.any_eq_false]
        intro x hx
        simp only [beq_iff_eq]
        intro hcontra
        exact hnotin (hcontra ▸ List.mem_map_of_mem OrderItem.id hx)
      subst hpit
      simp [hrest]
    · have h2 : (it.id == p.1) = false := by
        simpa using fun hcontra => hpk hcontra.symm
      simp [hpk, h2]

theorem ids_map_values (m : JsMap OrderItem) (hid : ∀ p ∈ m, p.1 = p.2.id) :
    (mapValues m).map OrderItem.id = m.map Prod.fst := by
  unfold mapValues
  rw [List.map_map]
  exact List.map_congr_left fun p hp => (hid p hp).symm

theorem ids_nodup_of_sublist (m : JsMap OrderItem)
    (hnd : (m.map Prod.fst).Nodup) (hid : ∀ p ∈ m, p.1 = p.2.id)
    {l : List OrderItem} (hl : l.Sublist (mapValues m)) :
    (l.map OrderItem.id).Nodup := by
  have hv : ((mapValues m).map OrderItem.id).Nodup := by
    rw [ids_map_values m hid]
    exact hnd
  exact hv.sublist (hl.map OrderItem.id)

theorem mapGet_of_mem_values (m : JsMap OrderItem)
    (hnd : (m.map Prod.fst).Nodup) (hid : ∀ p ∈ m, p.1 = p.2.id)
    {it : OrderItem} (hit : it ∈ mapValues m) : mapGet m it.id = some it := by
  rcases List.mem_map.mp hit with ⟨p, hp, rfl⟩
  have hk := hid p hp
  have hpair : (p.2.id, p.2) = p := by
    cases p with
    | mk a b =>
      simp only at hk
      simp [hk]
  exact mapGet_of_mem_nodup hnd (hpair ▸ hp)

theorem any_id_filter_values (m : JsMap OrderItem)
    (hnd : (m.map Prod.fst).Nodup) (hid : ∀ p ∈ m, p.1 = p.2.id)
    (Q : OrderItem → Bool) (p : Nat × OrderItem) (hp : p ∈ m) :
    ((mapValues m).filter Q).any (fun it => it.id == p.1) = Q p.2 := by
  cases hq : Q p.2 with
  | true =>
    apply List.any_eq_true.mpr
    refine ⟨p.2, List.mem_filter.mpr ⟨List.mem_map_of_mem Prod.snd hp, hq⟩, ?_⟩
    simpa using (hid p hp).symm
  | false =>
    rw [List.any_eq_false]
    intro it hit
    rcases List.mem_filter.mp hit with ⟨hval, hQ⟩
    rcases List.mem_map.mp hval with ⟨q, hqm, rfl⟩
    simp only [beq_iff_eq]
    intro hidq
    have hqp : q = p := nodupKeys_eq_of_mem hnd hqm hp (by rw [hid q hqm]; exact hidq)
    rw [hqp, hq] at hQ
    exact absurd hQ (by simp)

theorem foldStatus_state (s : MemStorage) (c : String) (Q : OrderItem → Bool)
    (hwf : ItemsWF s) :
    ((mapValues s.orderItems).filter Q).foldl
        (fun st it => (MemStorage.updateOrderItemStatus st it.id c).2) s =
      { s with orderItems := (s.orderItems.map
          (fun p => if Q p.2 then (p.1, { p.2 with status := c }) else p)) } := by
  obtain ⟨hnd, hid⟩ := hwf
  rw [foldStatus_eq c _ s hnd
    (fun it hit => mapGet_of_mem_values _ hnd hid (List.mem_of_mem_filter hit))
    (ids_nodup_of_sublist _ hnd hid (List.filter_sublist _))]
  congr 1
  refine List.map_congr_left fun p hp => ?_
  rw [any_id_filter_values _ hnd hid Q p hp]

theorem mapValues_statusMap (m : JsMap OrderItem) (Q : OrderItem → Bool) (c : String) :
    mapValues (m.map (fun p => if Q p.2 then (p.1, { p.2 with status := c }) else p)) =
      (mapValues m).map (fun v => if Q v then { v with status := c } else v) := by
  unfold mapValues
  rw [List.map_map, List.map_map]
  refine List.map_congr_left fun p _ => ?_
  by_cases h : Q p.2 <;> simp [h]

theorem getOrderItems_statusMap (s : MemStorage) (oid : Nat) (Q : OrderItem → Bool)
    (c : String) :
    MemStorage.getOrderItems
        { s with orderItems := (s.orderItems.map
            (fun p => if Q p.2 then (p.1, { p.2 with status := c }) else p)) } oid =
      (MemStorage.getOrderItems s oid).map
        (fun v => if Q v then { v with status := c } else v) := by
  unfold MemStorage.getOrderItems
  simp only [mapValues_statusMap]
  rw [List.filter_map]
  refine congrArg (List.map _) ?_
  refine List.filter_congr fun v _ => ?_
  by_cases h : Q v <;> simp [h]

/-! ## Characterizing the print routes -/

theorem getKot_missing (s : MemStorage) (oid : Nat)
    (h : mapGet s.orders oid = none) :
    Routes.getKot s oid = (Except.error Routes.RouteError.notFound, s) := by
  unfold Routes.getKot MemStorage.getOrder
  rw [h]

theorem getBill_missing (s : MemStorage) (oid : Nat)
    (h : mapGet s.orders oid = none) :
    Routes.getBill s oid = (Except.error Routes.RouteError.notFound, s) := by
  unfold Routes.getBill MemStorage.getOrder
  rw [h]

theorem getKot_found (s : MemStorage) (oid : Nat) (o : Order)
    (hwf : ItemsWF s) (ho : mapGet s.orders oid = some o) :
    Routes.getKot s oid =
      (Except.ok
        { order := o
          kotItems := (MemStorage.getOrderItems s oid).filter
            (fun it => it.status == "pending")
          allItems := (MemStorage.getOrderItems s oid).map
            (fun v => if v.orderId == oid && v.status == "pending"
              then { v with status := "kot_printed" } else v) },
       { s with orderItems := (s.orderItems.map
           (fun p => if p.2.orderId == oid && p.2.status == "pending"
             then (p.1, { p.2 with status := "kot_printed" }) else p)) }) := by
  have hfl : (MemStorage.getOrderItems s oid).filter (fun it => it.status == "pending") =
      (mapValues s.orderItems).filter
        (fun it => it.orderId == oid && it.status == "pending") := by
    unfold MemStorage.getOrderItems
    rw [List.filter_filter]
    exact List.filter_congr fun a _ => Bool.and_comm _ _
  unfold Routes.getKot MemStorage.getOrder
  rw [ho]
  simp only [hfl, foldStatus_state s "kot_printed" _ hwf]
  rw [getOrderItems_statusMap s oid
    (fun it => it.orderId == oid && it.status == "pending") "kot_printed"]

theorem getBill_pending (s : MemStorage) (oid : Nat) (o : Order)
    (ho : mapGet s.orders oid = some o)
    (hp : (MemStorage.getOrderItems s oid).any
      (fun it => it.status == "pending") = true) :
    Routes.getBill s oid = (Except.error Routes.RouteError.badRequest, s) := by
  unfold Routes.getBill MemStorage.getOrder
  rw [ho]
  simp only []
  have hpos : 0 < ((MemStorage.getOrderItems s oid).filter
      (fun it => it.status == "pending")).length := by
    rcases List.any_eq_true.mp hp with ⟨x, hx, hpx⟩
    exact List.length_pos.mpr
      (List.ne_nil_of_mem (List.mem_filter.mpr ⟨hx, hpx⟩))
  rw [if_pos hpos]

theorem getBill_ok (s : MemStorage) (oid : Nat) (o : Order)
    (hwf : ItemsWF s) (ho : mapGet s.orders oid = some o)
    (hnp : (MemStorage.getOrderItems s oid).any
      (fun it => it.status == "pending") = false) :
    Routes.getBill s oid =
      (Except.ok
        { order := o
          items := (MemStorage.getOrderItems s oid).map
            (fun v => if v.orderId == oid then { v with status := "completed" }
              else v) },
       { s with orderItems := (s.orderItems.map
           (fun p => if p.2.orderId == oid
             then (p.1, { p.2 with status := "completed" }) else p)) }) := by
  unfold Routes.getBill MemStorage.getOrder
  rw [ho]
  simp only []
  have hempty : (MemStorage.getOrderItems s oid).filter
      (fun it => it.status == "pending") = [] := by
    rw [List.filter_eq_nil_iff]
    intro a ha
    rw [List.any_eq_false] at hnp
    exact hnp a ha
  have hlen : ¬ 0 < ((MemStorage.getOrderItems s oid).filter
      (fun it => it.status == "pending")).length := by
    rw [hempty]
    simp
  rw [if_neg hlen]
  rw [show MemStorage.getOrderItems s oid =
    (mapValues s.orderItems).filter (fun it => it.orderId == oid) from rfl]
  rw [foldStatus_state s "completed" (fun it => it.orderId == oid) hwf]
  rw [getOrderItems_statusMap s oid (fun it => it.orderId == oid) "completed"]
  rfl

theorem keys_map_keyfix {α : Type} (m : JsMap α) (f : Nat × α → Nat × α)
    (hf : ∀ p, (f p).1 = p.1) :
    (m.map f).map Prod.fst = m.map Prod.fst := by
  rw [List.map_map]
  exact List.map_congr_left fun p _ => hf p

theorem mapGet_map_keyfix {α : Type} (m : JsMap α) (f : Nat × α → Nat × α)
    (hf : ∀ p, (f p).1 = p.1) (k : Nat) :
    mapGet (m.map f) k = (m.find? (fun p => p.1 == k)).map (fun p => (f p).2) := by
  induction m with
  | nil => simp [mapGet]
  | cons a t ih =>
    by_cases h : a.1 = k
    · unfold mapGet
      rw [List.map_cons, List.find?_cons_of_pos _ (by simp [hf a, h]),
        List.find?_cons_of_pos _ (by simpa using h)]
      rfl
    · unfold mapGet at ih ⊢
      rw [List.map_cons, List.find?_cons_of_neg _ (by simp [hf a, h]),
        List.find?_cons_of_neg _ (by simpa using h)]
      exact ih

theorem orderId_of_mem_getOrderItems {s : MemStorage} {oid : Nat} {v : OrderItem}
    (h : v ∈ MemStorage.getOrderItems s oid) : (v.orderId == oid) = true :=
  (List.mem_filter.mp h).2

/-! ## Claim theorems: the print routes -/

/-- C2: for every existing order, `printBill` fails with the Conflict
condition (HTTP 400, "Cannot print bill with pending items") when any item
of the order is still `pending`, leaving the store — hence every item's
status — unchanged; otherwise it succeeds, sets every item of the order to
`completed` and returns the full post-transition item set.  Unknown orders
signal NotFound.  `ItemsWF` is the `Map` representation invariant (unique
keys, key = item id), true of every reachable store. -/
theorem printBill_spec :
    (∀ s oid, mapGet s.orders oid = none →
      Routes.getBill s oid = (Except.error Routes.RouteError.notFound, s)) ∧
    (∀ s oid o, mapGet s.orders oid = some o →
      (MemStorage.getOrderItems s oid).any (fun it => it.status == "pending") = true →
      Routes.getBill s oid = (Except.error Routes.RouteError.badRequest, s)) ∧
    (∀ s oid o, ItemsWF s → mapGet s.orders oid = some o →
      (MemStorage.getOrderItems s oid).any (fun it => it.status == "pending") = false →
      ∃ r s1, Routes.getBill s oid = (Except.ok r, s1) ∧
        r.order = o ∧
        r.items = (MemStorage.getOrderItems s oid).map completedStep ∧
        r.items = MemStorage.getOrderItems s1 oid ∧
        ∀ it ∈ MemStorage.getOrderItems s1 oid, it.status = "completed") := by
  refine ⟨getBill_missing, getBill_pending, ?_⟩
  intro s oid o hwf ho hnp
  refine ⟨_, _, getBill_ok s oid o hwf ho hnp, rfl, ?_, ?_, ?_⟩
  · show (MemStorage.getOrderItems s oid).map _ = _
    refine List.map_congr_left fun v hv => ?_
    rw [if_pos (orderId_of_mem_getOrderItems hv)]
    rfl
  · show (MemStorage.getOrderItems s oid).map _ =
      MemStorage.getOrderItems _ oid
    rw [getOrderItems_statusMap s oid (fun it => it.orderId == oid) "completed"]
  · intro it hit
    rw [getOrderItems_statusMap s oid (fun it => it.orderId == oid) "completed"] at hit
    rcases List.mem_map.mp hit with ⟨v, hv, rfl⟩
    rw [if_pos (orderId_of_mem_getOrderItems hv)]

/-- C3: for every existing order, `printKOT` transitions exactly the items
of the order whose status was `pending` at call time to `kot_printed`,
leaves every other stored item (in particular the `kot_printed` and
`completed` ones) unchanged, and returns the pre-transition pending set
together with the post-transition full item set; a second call with no
items added in between changes nothing.  Unknown orders signal NotFound.
`ItemsWF` is the `Map` representation invariant (unique keys, key = item
id), true of every reachable store. -/
theorem printKOT_spec :
    (∀ s oid, mapGet s.orders oid = none →
      Routes.getKot s oid = (Except.error Routes.RouteError.notFound, s)) ∧
    (∀ s oid o, ItemsWF s → mapGet s.orders oid = some o →
      ∃ r s1, Routes.getKot s oid = (Except.ok r, s1) ∧
        r.order = o ∧
        r.kotItems = (MemStorage.getOrderItems s oid).filter
          (fun it => it.status == "pending") ∧
        r.allItems = (MemStorage.getOrderItems s oid).map kotStep ∧
        r.allItems = MemStorage.getOrderItems s1 oid ∧
        (∀ iid it, mapGet s.orderItems iid = some it → it.status ≠ "pending" →
          mapGet s1.orderItems iid = some it) ∧
        (Routes.getKot s1 oid).2 = s1) := by
  refine ⟨getKot_missing, ?_⟩
  intro s oid o hwf ho
  refine ⟨_, _, getKot_found s oid o hwf ho, rfl, rfl, ?_, ?_, ?_, ?_⟩
  · show (MemStorage.getOrderItems s oid).map _ = _
    refine List.map_congr_left fun v hv => ?_
    unfold kotStep
    rw [orderId_of_mem_getOrderItems hv, Bool.true_and]
  · show (MemStorage.getOrderItems s oid).map _ =
      MemStorage.getOrderItems _ oid
    rw [getOrderItems_statusMap s oid
      (fun it => it.orderId == oid && it.status == "pending") "kot_printed"]
  · intro iid it hit hnp
    cases hf : s.orderItems.find? (fun p => p.1 == iid) with
    | none =>
      unfold mapGet at hit
      rw [hf] at hit
      simp at hit
    | some p =>
      have hp2 : p.2 = it := by
        unfold mapGet at hit
        rw [hf] at hit
        simpa using hit
      show mapGet (s.orderItems.map _) iid = some it
      rw [mapGet_map_keyfix _ _ (fun q => by
        by_cases hq : (q.2.orderId == oid && q.2.status == "pending") = true
        · rw [if_pos hq]
        · rw [if_neg hq]) iid, hf]
      have hcond : (p.2.orderId == oid && p.2.status == "pending") = false := by
        rw [hp2]
        have : (it.status == "pending") = false := by simpa using hnp
        simp [this]
      simp [hp2]
      rw [if_neg (fun hand => hnp hand.2)]
      exact hp2
  · have hwf1 : ItemsWF { s with orderItems := (s.orderItems.map
        (fun p => if p.2.orderId == oid && p.2.status == "pending"
          then (p.1, { p.2 with status := "kot_printed" }) else p)) } := by
      constructor
      · show ((s.orderItems.map _).map Prod.fst).Nodup
        rw [keys_map_keyfix _ _
          (fun q => by
        by_cases hq : (q.2.orderId == oid && q.2.status == "pending") = true
        · rw [if_pos hq]
        · rw [if_neg hq])]
        exact hwf.1
      · intro q hq
        rcases List.mem_map.mp hq with ⟨p, hp, rfl⟩
        by_cases hc : (p.2.orderId == oid && p.2.status == "pending") = true
        · rw [if_pos hc]
          exact hwf.2 p hp
        · rw [if_neg hc]
          exact hwf.2 p hp
    have hfix := getKot_found _ oid o hwf1 ho
    refine (congrArg Prod.snd hfix).trans ?_
    simp only []
    congr 1
    rw [List.map_map]
    refine List.map_congr_left fun p hp => ?_
    simp only [Function.comp_apply]
    by_cases hc : (p.2.orderId == oid && p.2.status == "pending") = true
    · simp [hc]
    · simp [hc]

/-- C2 witness: billing order 1 of the concrete store after its KOT was
printed (one `kot_printed` item, none pending). -/
theorem printBill_spec_witness :
    ∃ r s1, Routes.getBill fixStore3 1 = (Except.ok r, s1) ∧
      r.order = fixOrder3 ∧
      r.items = (MemStorage.getOrderItems fixStore3 1).map completedStep ∧
      r.items = MemStorage.getOrderItems s1 1 ∧
      ∀ it ∈ MemStorage.getOrderItems s1 1, it.status = "completed" :=
  printBill_spec.2.2 fixStore3 1 fixOrder3
    (of_decide_eq_true (by with_unfolding_all rfl))
    (of_decide_eq_true (by with_unfolding_all rfl))
    (of_decide_eq_true (by with_unfolding_all rfl))

/-- C3 witness: printing the KOT for order 1 of the concrete store (one
`pending` item). -/
theorem printKOT_spec_witness :
    ∃ r s1, Routes.getKot fixStore2 1 = (Except.ok r, s1) ∧
      r.order = fixOrder2 ∧
      r.kotItems = (MemStorage.getOrderItems fixStore2 1).filter
        (fun it => it.status == "pending") ∧
      r.allItems = (MemStorage.getOrderItems fixStore2 1).map kotStep ∧
      r.allItems = MemStorage.getOrderItems s1 1 ∧
      (∀ iid it, mapGet fixStore2.orderItems iid = some it →
        it.status ≠ "pending" → mapGet s1.orderItems iid = some it) ∧
      (Routes.getKot s1 1).2 = s1 :=
  printKOT_spec.2 fixStore2 1 fixOrder2
    (of_decide_eq_true (by with_unfolding_all rfl))
    (of_decide_eq_true (by with_unfolding_all rfl))

theorem statusRank_le_two {st : String} (h : st ∈ lifecycleStatuses) :
    statusRank st ≤ 2 := by
  simp only [lifecycleStatuses, List.mem_cons, List.not_mem_nil, or_false] at h
  rcases h with rfl | rfl | rfl <;> decide

theorem mapGet_statusMap_rank (m : JsMap OrderItem) (Q : OrderItem → Bool)
    (c : String) (iid : Nat) (it' : OrderItem)
    (hall : ∀ p ∈ m, p.2.status ∈ lifecycleStatuses)
    (hcl : c ∈ lifecycleStatuses)
    (hrank : ∀ v : OrderItem, v.status ∈ lifecycleStatuses → Q v = true →
      statusRank v.status ≤ statusRank c)
    (hit' : mapGet (m.map
      (fun p => if Q p.2 then (p.1, { p.2 with status := c }) else p)) iid =
      some it') :
    ∃ it, mapGet m iid = some it ∧ statusRank it.status ≤ statusRank it'.status ∧
      it'.status ∈ lifecycleStatuses := by
  rw [mapGet_map_keyfix _ _
    (fun q => by
      by_cases hq : Q q.2 = true
      · rw [if_pos hq]
      · rw [if_neg hq]) iid] at hit'
  cases hf : m.find? (fun p => p.1 == iid) with
  | none =>
    rw [hf] at hit'
    simp at hit'
  | some p =>
    rw [hf] at hit'
    simp only [Option.map_some'] at hit'
    have hmem := List.mem_of_find?_eq_some hf
    have hpm : mapGet m iid = some p.2 := by
      unfold mapGet
      rw [hf]
      rfl
    refine ⟨p.2, hpm, ?_⟩
    by_cases hq : Q p.2 = true
    · rw [if_pos hq] at hit'
      have hval : ({ p.2 with status := c } : OrderItem) = it' := by
        simpa using hit'
      rw [← hval]
      exact ⟨hrank p.2 (hall p hmem) hq, hcl⟩
    · rw [if_neg hq] at hit'
      have hval : p.2 = it' := by simpa using hit'
      rw [← hval]
      exact ⟨le_refl _, hall p hmem⟩

/-- C4 counterexample: after the concrete lifecycle run, item 1 is
`completed`; one call of the exposed status-update operation moves it back
to `pending` (a backward transition), and another stores `"abc"`, a status
outside the three lifecycle states. -/
theorem statusUpdate_backwards_cex :
    (mapGet fixStore4.orderItems 1).map OrderItem.status = some "completed" ∧
    (mapGet fixStore5.orderItems 1).map OrderItem.status = some "pending" ∧
    (mapGet fixStore5g.orderItems 1).map OrderItem.status = some "abc" ∧
    "abc" ∉ lifecycleStatuses :=
  ⟨of_decide_eq_true (by with_unfolding_all rfl),
   of_decide_eq_true (by with_unfolding_all rfl),
   of_decide_eq_true (by with_unfolding_all rfl),
   by decide⟩

/-- C4 amended: the print operations (`printKOT`, `printBill`) preserve the
lifecycle and never move an item's status backwards along
`pending → kot_printed → completed` (given every stored status is a
lifecycle status); but the generic order-item status update stores the
given string unconditionally, so through it a status can move backwards or
leave the lifecycle entirely. -/
theorem print_ops_advance_status :
    (∀ s oid, ItemsWF s →
      (∀ p ∈ s.orderItems, p.2.status ∈ lifecycleStatuses) →
      ∀ iid it', mapGet (Routes.getKot s oid).2.orderItems iid = some it' →
        ∃ it, mapGet s.orderItems iid = some it ∧
          statusRank it.status ≤ statusRank it'.status ∧
          it'.status ∈ lifecycleStatuses) ∧
    (∀ s oid, ItemsWF s →
      (∀ p ∈ s.orderItems, p.2.status ∈ lifecycleStatuses) →
      ∀ iid it', mapGet (Routes.getBill s oid).2.orderItems iid = some it' →
        ∃ it, mapGet s.orderItems iid = some it ∧
          statusRank it.status ≤ statusRank it'.status ∧
          it'.status ∈ lifecycleStatuses) ∧
    (∀ s iid c it, mapGet s.orderItems iid = some it →
      (MemStorage.updateOrderItemStatus s iid c).1 =
        some { it with status := c }) := by
  refine ⟨?_, ?_, ?_⟩
  · intro s oid hwf hall iid it' hit'
    cases ho : mapGet s.orders oid with
    | none =>
      rw [getKot_missing s oid ho] at hit'
      exact ⟨it', hit', le_refl _, hall _ (mapGet_mem hit')⟩
    | some o =>
      rw [getKot_found s oid o hwf ho] at hit'
      simp only [] at hit'
      refine mapGet_statusMap_rank s.orderItems
        (fun v => v.orderId == oid && v.status == "pending") "kot_printed"
        iid it' hall (by decide) ?_ hit'
      intro v _ hq
      have hvp : v.status = "pending" := by
        have h2 := hq
        rw [Bool.and_eq_true] at h2
        simpa using h2.2
      rw [hvp]
      decide
  · intro s oid hwf hall iid it' hit'
    cases ho : mapGet s.orders oid with
    | none =>
      rw [getBill_missing s oid ho] at hit'
      exact ⟨it', hit', le_refl _, hall _ (mapGet_mem hit')⟩
    | some o =>
      cases hpend : (MemStorage.getOrderItems s oid).any
          (fun it => it.status == "pending") with
      | true =>
        rw [getBill_pending s oid o ho hpend] at hit'
        exact ⟨it', hit', le_refl _, hall _ (mapGet_mem hit')⟩
      | false =>
        rw [getBill_ok s oid o hwf ho hpend] at hit'
        simp only [] at hit'
        refine mapGet_statusMap_rank s.orderItems
          (fun v => v.orderId == oid) "completed"
          iid it' hall (by decide) ?_ hit'
        intro v hv _
        exact statusRank_le_two hv
  · intro s iid c it hit
    unfold MemStorage.updateOrderItemStatus
    rw [hit]

/-- C4 amended witness: the KOT print on the concrete store advances item
1 from `pending` to `kot_printed`. -/
theorem print_ops_advance_status_witness :
    ∃ it, mapGet fixStore2.orderItems 1 = some it ∧
      statusRank it.status ≤ statusRank fixItemKot.status ∧
      fixItemKot.status ∈ lifecycleStatuses :=
  print_ops_advance_status.1 fixStore2 1
    (of_decide_eq_true (by with_unfolding_all rfl))
    (of_decide_eq_true (by with_unfolding_all rfl))
    1 fixItemKot
    (of_decide_eq_true (by with_unfolding_all rfl))

/-! ## Order-number assignment (decimal printer and create-only runs) -/

theorem valRev_digitsRevGo : ∀ fuel n, n ≤ fuel → valRev (digitsRevGo fuel n) = n := by
  intro fuel
  induction fuel with
  | zero =>
    intro n hn
    have hz : n = 0 := by omega
    subst hz
    rfl
  | succ fuel ih =>
    intro n hn
    unfold digitsRevGo
    by_cases h : n < 10
    · rw [if_pos h]
      simp [valRev]
    · rw [if_neg h]
      simp only [valRev]
      rw [ih (n / 10) (by omega)]
      omega

theorem digitsRevGo_lt_ten : ∀ fuel n, n ≤ fuel → ∀ d ∈ digitsRevGo fuel n, d < 10 := by
  intro fuel
  induction fuel with
  | zero =>
    intro n hn d hd
    have hz : n = 0 := by omega
    subst hz
    simp only [digitsRevGo, List.mem_singleton] at hd
    omega
  | succ fuel ih =>
    intro n hn d hd
    unfold digitsRevGo at hd
    by_cases h : n < 10
    · rw [if_pos h] at hd
      simp only [List.mem_singleton] at hd
      omega
    · rw [if_neg h] at hd
      rcases List.mem_cons.mp hd with rfl | hd'
      · omega
      · exact ih (n / 10) (by omega) d hd'

theorem natDigitsRev_lt_ten (n : Nat) : ∀ d ∈ natDigitsRev n, d < 10 :=
  digitsRevGo_lt_ten n n (le_refl n)

theorem natDigitsRev_injective : Function.Injective natDigitsRev := by
  intro a b h
  have ha := valRev_digitsRevGo a a (le_refl a)
  have hb := valRev_digitsRevGo b b (le_refl b)
  unfold natDigitsRev at h
  rw [← ha, ← hb, h]

theorem digitChar_toNat : ∀ d, d < 10 → (digitChar d).toNat = 48 + d := by decide

theorem digits_map_digitChar_inj : ∀ l1 l2 : List Nat,
    (∀ d ∈ l1, d < 10) → (∀ d ∈ l2, d < 10) →
    l1.map digitChar = l2.map digitChar → l1 = l2 := by
  intro l1
  induction l1 with
  | nil =>
    intro l2 _ _ h
    cases l2 with
    | nil => rfl
    | cons b t => simp at h
  | cons a t ih =>
    intro l2 h1 h2 h
    cases l2 with
    | nil => simp at h
    | cons b t2 =>
      simp only [List.map_cons, List.cons.injEq] at h
      have ha := h1 a (by simp)
      have hb := h2 b (by simp)
      have hab : a = b := by
        have hc := congrArg Char.toNat h.1
        rw [digitChar_toNat a ha, digitChar_toNat b hb] at hc
        omega
      rw [hab, ih t2 (fun d hd => h1 d (by simp [hd]))
        (fun d hd => h2 d (by simp [hd])) h.2]

theorem jsNumberToString_injective : Function.Injective jsNumberToString := by
  intro a b h
  unfold jsNumberToString at h
  have hl : (natDigitsRev a).reverse.map digitChar =
      (natDigitsRev b).reverse.map digitChar := by
    have hd := congrArg String.data h
    simpa using hd
  have hrev : (natDigitsRev a).reverse = (natDigitsRev b).reverse :=
    digits_map_digitChar_inj _ _
      (fun d hd => natDigitsRev_lt_ten a d (List.mem_reverse.mp hd))
      (fun d hd => natDigitsRev_lt_ten b d (List.mem_reverse.mp hd)) hl
  have hdig : natDigitsRev a = natDigitsRev b := by
    have hr := congrArg List.reverse hrev
    simpa using hr
  exact natDigitsRev_injective hdig

theorem mapSet_append {α : Type} (m : JsMap α) (k : Nat) (v : α)
    (h : ∀ p ∈ m, p.1 < k) : mapSet m k v = m ++ [(k, v)] := by
  unfold mapSet
  rw [if_neg]
  intro hc
  rcases List.any_eq_true.mp hc with ⟨p, hp, hpk⟩
  have := h p hp
  simp only [beq_iff_eq] at hpk
  omega

theorem postOrders_state (s : MemStorage) (now : Nat) (b : InsertOrder)
    (hwf : OrdersWF s) :
    (Routes.postOrders s now b).2.orders =
      s.orders ++ [(s.currentOrderId, (Routes.postOrders s now b).1)] ∧
    (Routes.postOrders s now b).2.currentOrderId = s.currentOrderId + 1 ∧
    OrdersWF (Routes.postOrders s now b).2 := by
  have happ : mapSet s.orders s.currentOrderId (Routes.postOrders s now b).1 =
      s.orders ++ [(s.currentOrderId, (Routes.postOrders s now b).1)] :=
    mapSet_append _ _ _ hwf
  refine ⟨happ, rfl, ?_⟩
  intro p hp
  show p.1 < s.currentOrderId + 1
  have hp' : p ∈ s.orders ++ [(s.currentOrderId, (Routes.postOrders s now b).1)] := by
    rw [← happ]
    exact hp
  rcases List.mem_append.mp hp' with h | h
  · have := hwf p h
    omega
  · simp only [List.mem_singleton] at h
    rw [h]
    exact Nat.lt_succ_self _

theorem runCreates_numbers : ∀ (bodies : List InsertOrder) (s : MemStorage) (now : Nat),
    OrdersWF s →
    (runCreates s now bodies).1.map Order.orderNumber =
      (List.range bodies.length).map
        (fun i => jsNumberToString (1000 + s.orders.length + i + 1)) := by
  intro bodies
  induction bodies with
  | nil =>
    intro s now _
    rfl
  | cons b rest ih =>
    intro s now hwf
    obtain ⟨happ, hcnt, hwf'⟩ := postOrders_state s now b hwf
    have hlen' : (Routes.postOrders s now b).2.orders.length = s.orders.length + 1 := by
      rw [happ]
      simp
    show (Routes.postOrders s now b).1.orderNumber ::
        (runCreates (Routes.postOrders s now b).2 now rest).1.map Order.orderNumber = _
    rw [ih _ now hwf', hlen', List.length_cons]
    rw [List.range_succ_eq_map, List.map_cons, List.map_map]
    have hhead : (Routes.postOrders s now b).1.orderNumber =
        jsNumberToString (1000 + s.orders.length + 0 + 1) := by
      show jsNumberToString (1000 + (MemStorage.getAllOrders s).length + 1) = _
      have : (MemStorage.getAllOrders s).length = s.orders.length := by
        simp [MemStorage.getAllOrders, mapValues]
      rw [this]
    rw [hhead]
    refine congrArg (List.cons _) ?_
    refine List.map_congr_left fun i _ => ?_
    simp only [Function.comp_apply]
    exact congrArg jsNumberToString (by omega)

/-- C8: `POST /api/orders` derives the human-readable order number as the
decimal string of `1000 + count + 1`, where `count` is the number of
orders existing at creation time; consequently, in any sequential
create-only history the assigned order numbers are pairwise distinct.
`OrdersWF` (every stored key below the id counter) is the representation
invariant of reachable stores. -/
theorem orderNumber_assignment :
    (∀ s now body, (Routes.postOrders s now body).1.orderNumber =
      jsNumberToString (1000 + (MemStorage.getAllOrders s).length + 1)) ∧
    (∀ s now bodies, OrdersWF s →
      ((runCreates s now bodies).1.map Order.orderNumber).Nodup) := by
  refine ⟨fun s now body => rfl, ?_⟩
  intro s now bodies hwf
  rw [runCreates_numbers bodies s now hwf]
  refine List.Nodup.map ?_ (List.nodup_range _)
  intro i j hij
  have := jsNumberToString_injective hij
  omega

/-- C8 witness: three consecutive creations from the pristine store get
distinct numbers ("1001", "1002", "1003"). -/
theorem orderNumber_assignment_witness :
    ((runCreates MemStorage.init 0
      [fixInsertOrder, fixInsertOrder, fixInsertOrder]).1.map
        Order.orderNumber).Nodup :=
  orderNumber_assignment.2 MemStorage.init 0
    [fixInsertOrder, fixInsertOrder, fixInsertOrder] (by decide)
